import Mathlib

-- Verification development for the SIDLE scene rasterizer, a single C++
-- translation unit (src/src/main/main.cc).  The embedding below models:
-- C++ double values as rationals, machine integers as Int and Nat, thrown
-- exceptions as Except values, the file system and the external image
-- encoder as boolean oracle functions whose calls are recorded in an
-- event trace.  Every rounding site in the source has the shape
-- round(double * int), so rounding is modelled by one function on the
-- numerator and denominator of the rational operand.

namespace Sidle

-- Error taxonomy.  malformedInput corresponds to json::parse_error,
-- schemaViolation to nlohmann json::exception (missing or mistyped field),
-- and the remaining three to the runtime_error throws in the source
-- (lines 60 and 92: invalid colour, line 129: could not create output
-- folder, line 173: invalid type).
inductive RunError where
  | malformedInput
  | schemaViolation
  | invalidColourFormat
  | unsupportedElementType
  | outputDirectoryError
  deriving DecidableEq

-- colour = array of four uint8_t channels (line 36).
structure Colour where
  r : Nat
  g : Nat
  b : Nat
  a : Nat
  deriving DecidableEq

-- struct Resolution, two C++ ints (lines 38-41).
structure Resolution where
  width : Int
  height : Int
  deriving DecidableEq

-- One element of the images array elements list.  The source reads the
-- fields type, x, y, width, height and colour from the json object.
structure Elem where
  type : String
  x : Rat
  y : Rat
  width : Rat
  height : Rat
  colour : String
  deriving DecidableEq

-- One entry of the images array: name, scale factors, background, elements.
structure ImageSpec where
  name : String
  width : Rat
  height : Rat
  background : String
  elements : List Elem
  deriving DecidableEq

-- The parsed description: outputPath, resolutions, images (lines 111-122).
structure Description where
  outputPath : String
  resolutions : List Resolution
  images : List ImageSpec
  deriving DecidableEq

instance {ε α : Type} [DecidableEq ε] [DecidableEq α] : DecidableEq (Except ε α) := fun a b =>
  match a, b with
  | .ok x, .ok y =>
    if h : x = y then isTrue (h ▸ rfl) else isFalse fun hh => h (Except.ok.inj hh)
  | .error x, .error y =>
    if h : x = y then isTrue (h ▸ rfl) else isFalse fun hh => h (Except.error.inj hh)
  | .ok _, .error _ => isFalse fun hh => Except.noConfusion hh
  | .error _, .ok _ => isFalse fun hh => Except.noConfusion hh

-- parseHexit (lines 43-52).  Character code 48 is the digit 0, 57 is 9,
-- 97 is lower case a, 102 is lower case f, 65 is upper case A.  The final
-- else branch carries the source comment asserting A <= c <= F.
def parseHexit (c : Char) : Nat :=
  if 48 ≤ c.toNat ∧ c.toNat ≤ 57 then c.toNat - 48
  else if 97 ≤ c.toNat ∧ c.toNat ≤ 102 then c.toNat - 97 + 10
  else c.toNat - 65 + 10

-- Membership in the character set passed to find_first_not_of on line 59,
-- the string of all decimal digits and hex letters in both cases.
def isHexChar (c : Char) : Bool :=
  decide ((48 ≤ c.toNat ∧ c.toNat ≤ 57) ∨ (97 ≤ c.toNat ∧ c.toNat ≤ 102)
    ∨ (65 ≤ c.toNat ∧ c.toNat ≤ 70))

-- Lines 55-57: if (s.front() == '#') s = s.substr(1).  On the empty
-- string, front() reads the terminating null character of the std::string
-- buffer (operator[] at position size() is the null character), which is
-- not the hash sign, so nothing is stripped.
def stripHash : List Char → List Char
  | [] => []
  | c :: rest => if c = '#' then rest else c :: rest

-- Lines 59-93 of parseColour after the hash strip: reject any non hex
-- character, then dispatch on the length.  The mod 256 models the
-- static_cast to uint8_t on every channel.
def parseColourBody (t : List Char) : Except RunError Colour :=
  if t.all isHexChar = false then .error .invalidColourFormat
  else if t.length = 3 then
    .ok { r := parseHexit (t.getD 0 '0') * 0x11 % 256,
          g := parseHexit (t.getD 1 '0') * 0x11 % 256,
          b := parseHexit (t.getD 2 '0') * 0x11 % 256,
          a := 0xff }
  else if t.length = 4 then
    .ok { r := parseHexit (t.getD 0 '0') * 0x11 % 256,
          g := parseHexit (t.getD 1 '0') * 0x11 % 256,
          b := parseHexit (t.getD 2 '0') * 0x11 % 256,
          a := parseHexit (t.getD 3 '0') * 0x11 % 256 }
  else if t.length = 6 then
    .ok { r := (parseHexit (t.getD 0 '0') * 0x10 + parseHexit (t.getD 1 '0')) % 256,
          g := (parseHexit (t.getD 2 '0') * 0x10 + parseHexit (t.getD 3 '0')) % 256,
          b := (parseHexit (t.getD 4 '0') * 0x10 + parseHexit (t.getD 5 '0')) % 256,
          a := 0xff }
  else if t.length = 8 then
    .ok { r := (parseHexit (t.getD 0 '0') * 0x10 + parseHexit (t.getD 1 '0')) % 256,
          g := (parseHexit (t.getD 2 '0') * 0x10 + parseHexit (t.getD 3 '0')) % 256,
          b := (parseHexit (t.getD 4 '0') * 0x10 + parseHexit (t.getD 5 '0')) % 256,
          a := (parseHexit (t.getD 6 '0') * 0x10 + parseHexit (t.getD 7 '0')) % 256 }
  else .error .invalidColourFormat

-- parseColour (lines 54-94), on the character list of the input string.
def parseColour (s : List Char) : Except RunError Colour :=
  parseColourBody (stripHash s)

-- Round half away from zero of the fraction n / d (d positive), the
-- behaviour of std::round.  For nonnegative n this is (2n + d) / (2d) in
-- natural division, the floor of n / d + 1 / 2; the negative case mirrors it.
def roundAway (n : Int) (d : Nat) : Int :=
  if 0 ≤ n then ((2 * n.toNat + d) / (2 * d) : Nat)
  else -(((2 * (-n).toNat + d) / (2 * d) : Nat) : Int)

-- round(q * k) for a double q and an int k: the value q * k is the
-- fraction (q.num * k) / q.den, rounded half away from zero.
def roundMul (q : Rat) (k : Int) : Int :=
  roundAway (q.num * k) q.den

-- Lines 135-137: absolute canvas dimensions of an image at a resolution.
def absWidth (img : ImageSpec) (r : Resolution) : Int :=
  roundMul img.width r.width

def absHeight (img : ImageSpec) (r : Resolution) : Int :=
  roundMul img.height r.height

-- Lines 155-165: rectangle bounds in absolute pixel coordinates.  The end
-- coordinates are clamped to the canvas dimension with min; the start
-- coordinates are not clamped.
def rectStartX (e : Elem) (w : Int) : Int := roundMul e.x w

def rectEndX (e : Elem) (w : Int) : Int :=
  min (rectStartX e w + roundMul e.width w) w

def rectStartY (e : Elem) (h : Int) : Int := roundMul e.y h

def rectEndY (e : Elem) (h : Int) : Int :=
  min (rectStartY e h + roundMul e.height h) h

-- The pixel coordinate (x, y) lies in the painted half open rectangle
-- [startX, endX) x [startY, endY) of the loops on lines 166-171.
def coversRect (e : Elem) (w h : Int) (x y : Int) : Bool :=
  decide (rectStartX e w ≤ x ∧ x < rectEndX e w
    ∧ rectStartY e h ≤ y ∧ y < rectEndY e h)

-- The same test on a flat row major buffer index i = y * width + x
-- (the write on line 169 targets byte offset (y * width + x) * 4).
def coversIdx (e : Elem) (w h : Int) (i : Nat) : Bool :=
  coversRect e w h ((i % w.toNat : Nat) : Int) ((i / w.toNat : Nat) : Int)

-- Overwrite every position whose index satisfies p with colour c, keeping
-- the rest; k is the index of the first list entry.
def paintGo (p : Nat → Bool) (c : Colour) : Nat → List Colour → List Colour
  | _, [] => []
  | k, a :: t => (if p k then c else a) :: paintGo p c (k + 1) t

-- Lines 150-174: one element.  A rectangle parses its colour and paints
-- its clamped pixel range; any other type throws invalid type.
def paintElement (w h : Int) (buf : List Colour) (e : Elem) :
    Except RunError (List Colour) :=
  if e.type = "rectangle" then
    match parseColour e.colour.data with
    | .error err => .error err
    | .ok c => .ok (paintGo (coversIdx e w h) c 0 buf)
  else .error .unsupportedElementType

-- Line 149: the elements loop, aborting at the first failing element.
def renderElems (w h : Int) : List Colour → List Elem → Except RunError (List Colour)
  | buf, [] => .ok buf
  | buf, e :: rest =>
    match paintElement w h buf e with
    | .error err => .error err
    | .ok buf2 => renderElems w h buf2 rest

-- Lines 139-147: allocate width * height pixels and fill each with the
-- parsed background colour.
def initialBuffer (img : ImageSpec) (r : Resolution) : Except RunError (List Colour) :=
  match parseColour img.background.data with
  | .error e => .error e
  | .ok bg => .ok (List.replicate ((absWidth img r * absHeight img r).toNat) bg)

-- The full per pair rasterization: background fill then the elements loop.
def renderImage (img : ImageSpec) (r : Resolution) : Except RunError (List Colour) :=
  match initialBuffer img r with
  | .error e => .error e
  | .ok buf => renderElems (absWidth img r) (absHeight img r) buf img.elements

-- The byte view of a pixel buffer: four bytes per pixel, RGBA order.
def bufferBytes (l : List Colour) : List Nat :=
  l.bind fun c => [c.r, c.g, c.b, c.a]

-- Observable events of one run: a create_directories call (line 127) and
-- an encoder call (line 177) whose boolean result is the oracle answer.
inductive Ev where
  | mkDir (folder : String)
  | write (imgName : String) (res : Resolution) (encoderOk : Bool)
  deriving DecidableEq

-- Lines 124-126: outputFolder / ("res" + width + "x" + height).
def resolutionFolder (out : String) (r : Resolution) : String :=
  out ++ "/res" ++ toString r.width ++ "x" ++ toString r.height

-- Lines 132-133: resolutionFolder / (name + ".tga").
def outputFile (out : String) (img : ImageSpec) (r : Resolution) : String :=
  resolutionFolder out r ++ "/" ++ img.name ++ ".tga"

-- The body of the inner loop (lines 124-177) for one (image, resolution)
-- pair: create the directory, verify it, render, hand the buffer to the
-- encoder.  The encoder result is recorded in the event but never
-- consulted, exactly as the source discards the stbi_write_tga result.
def processPair (dirOk : String → Bool) (enc : String → Bool) (out : String)
    (img : ImageSpec) (r : Resolution) : List Ev × Except RunError Unit :=
  let folder := resolutionFolder out r
  if dirOk folder = false then ([Ev.mkDir folder], Except.error RunError.outputDirectoryError)
  else
    match renderImage img r with
    | .error e => ([Ev.mkDir folder], .error e)
    | .ok _ => ([Ev.mkDir folder, Ev.write img.name r (enc (outputFile out img r))], .ok ())

-- Sequential processing of a pair list; an exception aborts the rest.
def runSeq (dirOk enc : String → Bool) (out : String) :
    List (ImageSpec × Resolution) → List Ev × Except RunError Unit
  | [] => ([], .ok ())
  | p :: rest =>
    match (processPair dirOk enc out p.1 p.2).2 with
    | .error e => ((processPair dirOk enc out p.1 p.2).1, .error e)
    | .ok _ =>
      ((processPair dirOk enc out p.1 p.2).1 ++ (runSeq dirOk enc out rest).1,
       (runSeq dirOk enc out rest).2)

-- Lines 122-123: for each image (outer), for each resolution (inner).
def pairOrder (d : Description) : List (ImageSpec × Resolution) :=
  d.images.bind fun img => d.resolutions.map fun r => (img, r)

def runPipeline (dirOk enc : String → Bool) (d : Description) :
    List Ev × Except RunError Unit :=
  runSeq dirOk enc d.outputPath (pairOrder d)

-- Lines 180-189: json::parse_error returns 1; json::exception and
-- runtime_error print a message and fall through to return 0.
def exitOfTry : Except RunError Unit → Nat
  | .ok _ => 0
  | .error .malformedInput => 1
  | .error _ => 0

-- Lines 96-106 and 180-189: usage error and unreadable file return 1
-- before the try block; otherwise the try block result decides the code.
def mainExitCode (argc : Nat) (fileOk : Bool) (r : Except RunError Unit) : Nat :=
  if argc ≠ 2 then 1
  else if fileOk = false then 1
  else exitOfTry r

-- Oracles for concrete runs: every directory creation succeeds, every
-- encoder call succeeds, every encoder call fails.
def dirOkAll : String → Bool := fun _ => true

def encOkAll : String → Bool := fun _ => true

def encFailAll : String → Bool := fun _ => false

-- Erase the encoder result from an event, for comparing traces across
-- different encoder oracles.
def forgetEnc : Ev → Ev
  | .mkDir f => .mkDir f
  | .write n r _ => .write n r true

-- Concrete scene fragments used by the closed witness and counterexample
-- theorems below.
def colourWhite : Colour := { r := 255, g := 255, b := 255, a := 255 }

def colourBlack : Colour := { r := 0, g := 0, b := 0, a := 255 }

def colourGreen : Colour := { r := 0, g := 255, b := 0, a := 255 }

def hexWhite : String := "#fff"

def hexBlack : String := "#000"

def hexGreen : String := "#0f0"

def hexRed : String := "#f00"

def rectType : String := "rectangle"

def ellipseType : String := "ellipse"

def outP : String := "o"

def nameA : String := "a"

def nameB : String := "b"

def nameBad : String := "bad"

def res11 : Resolution := { width := 1, height := 1 }

def res22 : Resolution := { width := 2, height := 2 }

def res32 : Resolution := { width := 3, height := 2 }

-- A centered half size rectangle on a 4 x 4 canvas.
def elemC1 : Elem :=
  { type := rectType, x := mkRat 1 4, y := mkRat 1 4,
    width := mkRat 1 2, height := mkRat 1 2, colour := hexWhite }

def bufC1 : List Colour := List.replicate 16 colourBlack

-- Two full canvas rectangles, red below green.
def elemFullRed : Elem :=
  { type := rectType, x := 0, y := 0, width := 1, height := 1, colour := hexRed }

def elemFullGreen : Elem :=
  { type := rectType, x := 0, y := 0, width := 1, height := 1, colour := hexGreen }

def imgC2 : ImageSpec :=
  { name := nameA, width := 1, height := 1, background := hexBlack,
    elements := [elemFullRed, elemFullGreen] }

def imgC3 : ImageSpec :=
  { name := nameA, width := 1, height := 1, background := hexGreen, elements := [] }

def imgPlainA : ImageSpec :=
  { name := nameA, width := 1, height := 1, background := hexBlack, elements := [] }

def imgPlainB : ImageSpec :=
  { name := nameB, width := 1, height := 1, background := hexBlack, elements := [] }

def descC5 : Description :=
  { outputPath := outP, resolutions := [res11, res22], images := [imgPlainA, imgPlainB] }

def elemEllipse : Elem :=
  { type := ellipseType, x := 0, y := 0, width := 1, height := 1, colour := hexWhite }

def imgEllipse : ImageSpec :=
  { name := nameBad, width := 1, height := 1, background := hexBlack,
    elements := [elemEllipse] }

def descC6 : Description :=
  { outputPath := outP, resolutions := [res11], images := [imgEllipse] }

def descC7 : Description :=
  { outputPath := outP, resolutions := [res11], images := [imgPlainA, imgEllipse] }

def descC8 : Description :=
  { outputPath := outP, resolutions := [res11], images := [imgEllipse] }

def descC10 : Description :=
  { outputPath := outP, resolutions := [res11], images := [imgPlainA] }

-- Facts about the paint loop.

theorem paintGo_length (p : Nat → Bool) (c : Colour) :
    ∀ (k : Nat) (l : List Colour), (paintGo p c k l).length = l.length
  | _, [] => rfl
  | k, _ :: t => by simp [paintGo, paintGo_length p c (k + 1) t]

theorem paintGo_getElem? (p : Nat → Bool) (c : Colour) :
    ∀ (l : List Colour) (k i : Nat),
      (paintGo p c k l)[i]? = (l[i]?).map fun a => if p (k + i) then c else a
  | [], k, i => by simp [paintGo]
  | a :: t, k, 0 => by simp [paintGo]
  | a :: t, k, i + 1 => by
    have ih := paintGo_getElem? p c t (k + 1) i
    have hk : k + 1 + i = k + (i + 1) := by omega
    simp only [paintGo, List.getElem?_cons_succ, ih, hk]

theorem paintGo_of_false (p : Nat → Bool) (c : Colour) (hp : ∀ k, p k = false) :
    ∀ (k : Nat) (l : List Colour), paintGo p c k l = l
  | _, [] => rfl
  | k, _ :: t => by simp [paintGo, hp k, paintGo_of_false p c hp (k + 1) t]

-- Facts about hex characters and the colour parser.

theorem parseHexit_lt_16 (c : Char) (hc : isHexChar c = true) : parseHexit c < 16 := by
  rw [isHexChar, decide_eq_true_eq] at hc
  rw [parseHexit]
  split_ifs <;> omega

theorem isHexChar_ne_hash (c : Char) (hc : isHexChar c = true) : ¬ c = '#' := by
  intro h
  subst h
  exact absurd hc (by decide)

theorem all_isHexChar_getD (t : List Char) (i : Nat) (hi : i < t.length)
    (h : t.all isHexChar = true) : isHexChar (t.getD i '0') = true := by
  rw [List.getD_eq_getElem?_getD, List.getElem?_eq_getElem hi, Option.getD_some]
  exact List.all_eq_true.mp h _ (List.getElem_mem hi)

theorem hexit_times17_mod (c : Char) (hc : isHexChar c = true) :
    parseHexit c * 0x11 % 256 = parseHexit c * 0x11 := by
  have := parseHexit_lt_16 c hc
  omega

theorem hexit_pair_mod (c d : Char) (hc : isHexChar c = true) (hd : isHexChar d = true) :
    (parseHexit c * 0x10 + parseHexit d) % 256 = parseHexit c * 0x10 + parseHexit d := by
  have := parseHexit_lt_16 c hc
  have := parseHexit_lt_16 d hd
  omega

theorem stripHash_hash (t : List Char) : stripHash ('#' :: t) = t := by
  simp [stripHash]

theorem stripHash_of_hex (t : List Char) (h : t.all isHexChar = true) : stripHash t = t := by
  cases t with
  | nil => rfl
  | cons c rest =>
    have hc : isHexChar c = true := List.all_eq_true.mp h c (List.mem_cons_self c rest)
    simp [stripHash, isHexChar_ne_hash c hc]

-- Facts about rounding.

theorem roundMul_nonneg (q : Rat) (k : Int) (hq : 0 < q) (hk : 0 < k) :
    0 ≤ roundMul q k := by
  rw [roundMul, roundAway]
  have hn : 0 ≤ q.num * k := mul_nonneg (Rat.num_pos.mpr hq).le hk.le
  rw [if_pos hn]
  exact Int.natCast_nonneg _

theorem bufferBytes_length : ∀ l : List Colour, (bufferBytes l).length = l.length * 4
  | [] => rfl
  | c :: t => by
    have ih := bufferBytes_length t
    simp only [bufferBytes] at ih ⊢
    simp [List.cons_bind, ih]
    omega

/-- C1: for every rectangle element painted onto a canvas of absolute
dimensions w x h, painting succeeds, the end coordinates are the start plus
the rounded scaled size clamped with min to the canvas bound, exactly the
pixels of the half open range [startX, endX) x [startY, endY) receive the
element colour while all others keep their previous value, every covered
pixel satisfies x < w and y < h so no pixel outside the canvas is written,
and an empty clamped range (start at or beyond end) paints no pixel and is
not an error. -/
theorem C1_rectangle_clipping (e : Elem) (w h : Int) (buf : List Colour) (c : Colour)
    (htype : e.type = "rectangle")
    (hcol : parseColour e.colour.data = .ok c) :
    ∃ buf2, paintElement w h buf e = .ok buf2
      ∧ rectEndX e w = min (rectStartX e w + roundMul e.width w) w
      ∧ rectEndY e h = min (rectStartY e h + roundMul e.height h) h
      ∧ (∀ x y : Int, coversRect e w h x y = true → x < w ∧ y < h)
      ∧ buf2.length = buf.length
      ∧ (∀ i : Nat, i < buf.length →
          buf2[i]? = if coversIdx e w h i then some c else buf[i]?)
      ∧ ((rectEndX e w ≤ rectStartX e w ∨ rectEndY e h ≤ rectStartY e h) →
          buf2 = buf) := by
  refine ⟨paintGo (coversIdx e w h) c 0 buf, ?_, rfl, rfl, ?_,
    paintGo_length _ _ _ _, ?_, ?_⟩
  · rw [paintElement, if_pos htype, hcol]
  · intro x y hc
    rw [coversRect, decide_eq_true_eq] at hc
    exact ⟨lt_of_lt_of_le hc.2.1 (min_le_right _ _),
      lt_of_lt_of_le hc.2.2.2 (min_le_right _ _)⟩
  · intro i hi
    rw [paintGo_getElem?, List.getElem?_eq_getElem hi]
    cases hcov : coversIdx e w h i <;> simp [hcov]
  · intro hemp
    apply paintGo_of_false
    intro k
    rw [coversIdx, coversRect, decide_eq_false_iff_not]
    intro hcon
    obtain ⟨h1, h2, h3, h4⟩ := hcon
    rcases hemp with hx | hy
    · exact lt_irrefl _ (lt_of_lt_of_le (lt_of_le_of_lt h1 h2) hx)
    · exact lt_irrefl _ (lt_of_lt_of_le (lt_of_le_of_lt h3 h4) hy)

/-- Witness for C1 at a centered half size rectangle on a 4 x 4 canvas. -/
theorem C1_rectangle_clipping_witness :
    elemC1.type = "rectangle"
    ∧ parseColour elemC1.colour.data = .ok colourWhite
    ∧ ∃ buf2, paintElement 4 4 bufC1 elemC1 = .ok buf2
        ∧ rectEndX elemC1 4 = min (rectStartX elemC1 4 + roundMul elemC1.width 4) 4
        ∧ rectEndY elemC1 4 = min (rectStartY elemC1 4 + roundMul elemC1.height 4) 4
        ∧ (∀ x y : Int, coversRect elemC1 4 4 x y = true → x < 4 ∧ y < 4)
        ∧ buf2.length = bufC1.length
        ∧ (∀ i : Nat, i < bufC1.length →
            buf2[i]? = if coversIdx elemC1 4 4 i then some colourWhite else bufC1[i]?)
        ∧ ((rectEndX elemC1 4 ≤ rectStartX elemC1 4
              ∨ rectEndY elemC1 4 ≤ rectStartY elemC1 4) → buf2 = bufC1) :=
  ⟨by decide, by decide,
    C1_rectangle_clipping elemC1 4 4 bufC1 colourWhite (by decide) (by decide)⟩

/-- C3: for every image and resolution with positive resolution dimensions
and positive scale factors whose background colour parses, the rasterizer
allocates a buffer of exactly round(width scale times resolution width)
times round(height scale times resolution height) pixels, hence exactly
that many times four bytes, and fills every pixel of it with the parsed
background colour. -/
theorem C3_buffer_allocation (img : ImageSpec) (r : Resolution) (bg : Colour)
    (hw : 0 < r.width) (hh : 0 < r.height)
    (hiw : 0 < img.width) (hih : 0 < img.height)
    (hbg : parseColour img.background.data = .ok bg) :
    ∃ init, initialBuffer img r = .ok init
      ∧ (bufferBytes init).length = (absWidth img r * absHeight img r * 4).toNat
      ∧ ∀ p ∈ init, p = bg := by
  refine ⟨List.replicate ((absWidth img r * absHeight img r).toNat) bg, ?_, ?_, ?_⟩
  · rw [initialBuffer, hbg]
  · rw [bufferBytes_length, List.length_replicate]
    have h1 : 0 ≤ absWidth img r := roundMul_nonneg _ _ hiw hw
    have h2 : 0 ≤ absHeight img r := roundMul_nonneg _ _ hih hh
    have h3 : 0 ≤ absWidth img r * absHeight img r := mul_nonneg h1 h2
    omega
  · intro p hp
    exact List.eq_of_mem_replicate hp

/-- Witness for C3 at scale one on a 3 x 2 resolution. -/
theorem C3_buffer_allocation_witness :
    (0 : Int) < res32.width ∧ (0 : Int) < res32.height
    ∧ (0 : Rat) < imgC3.width ∧ (0 : Rat) < imgC3.height
    ∧ parseColour imgC3.background.data = .ok colourGreen
    ∧ ∃ init, initialBuffer imgC3 res32 = .ok init
        ∧ (bufferBytes init).length
            = (absWidth imgC3 res32 * absHeight imgC3 res32 * 4).toNat
        ∧ ∀ p ∈ init, p = colourGreen :=
  ⟨by decide, by decide, by decide, by decide, by decide,
    C3_buffer_allocation imgC3 res32 colourGreen
      (by decide) (by decide) (by decide) (by decide) (by decide)⟩

/-- C4: a string of 3, 4, 6 or 8 hex digits, with or without a leading hash,
parses to the documented channel values: length 3 gives each hexit times
0x11 with alpha 255, length 4 the same with alpha from the fourth hexit,
length 6 pairwise bytes with alpha 255, length 8 pairwise bytes including
alpha; any other length, and any string whose stripped form has a non hex
character, fails with the invalid colour format error. -/
theorem C4_colour_parse_spec :
    (∀ s t : List Char, (s = t ∨ s = '#' :: t) → t.all isHexChar = true →
      ((t.length = 3 → parseColour s = .ok
          { r := parseHexit (t.getD 0 '0') * 0x11,
            g := parseHexit (t.getD 1 '0') * 0x11,
            b := parseHexit (t.getD 2 '0') * 0x11, a := 0xff })
        ∧ (t.length = 4 → parseColour s = .ok
          { r := parseHexit (t.getD 0 '0') * 0x11,
            g := parseHexit (t.getD 1 '0') * 0x11,
            b := parseHexit (t.getD 2 '0') * 0x11,
            a := parseHexit (t.getD 3 '0') * 0x11 })
        ∧ (t.length = 6 → parseColour s = .ok
          { r := parseHexit (t.getD 0 '0') * 0x10 + parseHexit (t.getD 1 '0'),
            g := parseHexit (t.getD 2 '0') * 0x10 + parseHexit (t.getD 3 '0'),
            b := parseHexit (t.getD 4 '0') * 0x10 + parseHexit (t.getD 5 '0'),
            a := 0xff })
        ∧ (t.length = 8 → parseColour s = .ok
          { r := parseHexit (t.getD 0 '0') * 0x10 + parseHexit (t.getD 1 '0'),
            g := parseHexit (t.getD 2 '0') * 0x10 + parseHexit (t.getD 3 '0'),
            b := parseHexit (t.getD 4 '0') * 0x10 + parseHexit (t.getD 5 '0'),
            a := parseHexit (t.getD 6 '0') * 0x10 + parseHexit (t.getD 7 '0') })
        ∧ (t.length ≠ 3 → t.length ≠ 4 → t.length ≠ 6 → t.length ≠ 8 →
            parseColour s = .error .invalidColourFormat)))
    ∧ (∀ s : List Char, (stripHash s).all isHexChar = false →
        parseColour s = .error .invalidColourFormat) := by
  constructor
  · intro s t hsplit hhex
    have hs : stripHash s = t := by
      rcases hsplit with rfl | rfl
      · exact stripHash_of_hex s hhex
      · exact stripHash_hash t
    have hpc : parseColour s = parseColourBody t := by rw [parseColour, hs]
    have hnothex : ¬ (t.all isHexChar = false) := by simp [hhex]
    refine ⟨?_, ?_, ?_, ?_, ?_⟩
    · intro hlen
      rw [hpc, parseColourBody, if_neg hnothex, if_pos hlen,
        hexit_times17_mod _ (all_isHexChar_getD t 0 (by omega) hhex),
        hexit_times17_mod _ (all_isHexChar_getD t 1 (by omega) hhex),
        hexit_times17_mod _ (all_isHexChar_getD t 2 (by omega) hhex)]
    · intro hlen
      rw [hpc, parseColourBody, if_neg hnothex, if_neg (by omega), if_pos hlen,
        hexit_times17_mod _ (all_isHexChar_getD t 0 (by omega) hhex),
        hexit_times17_mod _ (all_isHexChar_getD t 1 (by omega) hhex),
        hexit_times17_mod _ (all_isHexChar_getD t 2 (by omega) hhex),
        hexit_times17_mod _ (all_isHexChar_getD t 3 (by omega) hhex)]
    · intro hlen
      rw [hpc, parseColourBody, if_neg hnothex, if_neg (by omega), if_neg (by omega),
        if_pos hlen,
        hexit_pair_mod _ _ (all_isHexChar_getD t 0 (by omega) hhex)
          (all_isHexChar_getD t 1 (by omega) hhex),
        hexit_pair_mod _ _ (all_isHexChar_getD t 2 (by omega) hhex)
          (all_isHexChar_getD t 3 (by omega) hhex),
        hexit_pair_mod _ _ (all_isHexChar_getD t 4 (by omega) hhex)
          (all_isHexChar_getD t 5 (by omega) hhex)]
    · intro hlen
      rw [hpc, parseColourBody, if_neg hnothex, if_neg (by omega), if_neg (by omega),
        if_neg (by omega), if_pos hlen,
        hexit_pair_mod _ _ (all_isHexChar_getD t 0 (by omega) hhex)
          (all_isHexChar_getD t 1 (by omega) hhex),
        hexit_pair_mod _ _ (all_isHexChar_getD t 2 (by omega) hhex)
          (all_isHexChar_getD t 3 (by omega) hhex),
        hexit_pair_mod _ _ (all_isHexChar_getD t 4 (by omega) hhex)
          (all_isHexChar_getD t 5 (by omega) hhex),
        hexit_pair_mod _ _ (all_isHexChar_getD t 6 (by omega) hhex)
          (all_isHexChar_getD t 7 (by omega) hhex)]
    · intro h3 h4 h6 h8
      rw [hpc, parseColourBody, if_neg hnothex, if_neg h3, if_neg h4, if_neg h6,
        if_neg h8]
  · intro s hbad
    rw [parseColour, parseColourBody, if_pos hbad]

/-- Witness for C4: a hash prefixed three digit colour, a five digit string
and a non hex string. -/
theorem C4_colour_parse_spec_witness :
    (['1', 'a', 'F'].all isHexChar = true)
    ∧ parseColour ('#' :: ['1', 'a', 'F']) = .ok { r := 17, g := 170, b := 255, a := 255 }
    ∧ parseColour ['1', 'a', 'F', 'F', 'F'] = .error .invalidColourFormat
    ∧ parseColour ['z', 'z', 'z'] = .error .invalidColourFormat := by
  refine ⟨by decide, ?_, ?_, ?_⟩
  · exact (C4_colour_parse_spec.1 ('#' :: ['1', 'a', 'F']) ['1', 'a', 'F']
      (Or.inr rfl) (by decide)).1 rfl
  · exact (C4_colour_parse_spec.1 ['1', 'a', 'F', 'F', 'F'] ['1', 'a', 'F', 'F', 'F']
      (Or.inl rfl) (by decide)).2.2.2.2 (by decide) (by decide) (by decide) (by decide)
  · exact C4_colour_parse_spec.2 ['z', 'z', 'z'] (by decide)

-- Inversion and preservation facts about painting and rendering, used for
-- the overdraw claim.

theorem coversRect_inside (e : Elem) (w h x y : Int)
    (hc : coversRect e w h x y = true) : x < w ∧ y < h := by
  rw [coversRect, decide_eq_true_eq] at hc
  exact ⟨lt_of_lt_of_le hc.2.1 (min_le_right _ _),
    lt_of_lt_of_le hc.2.2.2 (min_le_right _ _)⟩

theorem paintElement_ok_inv (w h : Int) (buf buf2 : List Colour) (e : Elem)
    (hp : paintElement w h buf e = .ok buf2) :
    e.type = "rectangle" ∧ ∃ c, parseColour e.colour.data = .ok c
      ∧ buf2 = paintGo (coversIdx e w h) c 0 buf := by
  by_cases ht : e.type = "rectangle"
  · rw [paintElement, if_pos ht] at hp
    cases hc : parseColour e.colour.data with
    | error err => rw [hc] at hp; cases hp
    | ok c =>
      rw [hc] at hp
      cases hp
      exact ⟨ht, c, rfl, rfl⟩
  · rw [paintElement, if_neg ht] at hp
    cases hp

theorem paintElement_ok_of (w h : Int) (buf : List Colour) (e : Elem) (c : Colour)
    (ht : e.type = "rectangle") (hc : parseColour e.colour.data = .ok c) :
    paintElement w h buf e = .ok (paintGo (coversIdx e w h) c 0 buf) := by
  rw [paintElement, if_pos ht, hc]

theorem renderElems_append (w h : Int) :
    ∀ (l1 l2 : List Elem) (buf : List Colour),
      renderElems w h buf (l1 ++ l2)
        = match renderElems w h buf l1 with
          | .error e => .error e
          | .ok b => renderElems w h b l2
  | [], _, _ => rfl
  | e :: l1, l2, buf => by
    simp only [List.cons_append, renderElems]
    cases hp : paintElement w h buf e with
    | error err => rfl
    | ok b2 => exact renderElems_append w h l1 l2 b2

theorem renderElems_length (w h : Int) :
    ∀ (l : List Elem) (buf buf2 : List Colour),
      renderElems w h buf l = .ok buf2 → buf2.length = buf.length
  | [], _, _, hr => by cases hr; rfl
  | e :: l, buf, buf2, hr => by
    simp only [renderElems] at hr
    cases hp : paintElement w h buf e with
    | error err => rw [hp] at hr; cases hr
    | ok b2 =>
      rw [hp] at hr
      have hlen := renderElems_length w h l b2 buf2 hr
      obtain ⟨ht, c, hc, rfl⟩ := paintElement_ok_inv w h buf b2 e hp
      rw [paintGo_length] at hlen
      exact hlen

theorem renderElems_mem (w h : Int) :
    ∀ (l : List Elem) (buf buf2 : List Colour),
      renderElems w h buf l = .ok buf2 →
      ∀ e ∈ l, e.type = "rectangle" ∧ ∃ c, parseColour e.colour.data = .ok c
  | [], _, _, _, e, he => absurd he (List.not_mem_nil e)
  | e0 :: l, buf, buf2, hr, e, he => by
    simp only [renderElems] at hr
    cases hp : paintElement w h buf e0 with
    | error err => rw [hp] at hr; cases hr
    | ok b2 =>
      rw [hp] at hr
      rcases List.mem_cons.mp he with rfl | hmem
      · obtain ⟨ht, c, hc, _⟩ := paintElement_ok_inv w h buf b2 e hp
        exact ⟨ht, c, hc⟩
      · exact renderElems_mem w h l b2 buf2 hr e hmem

theorem renderElems_keep (w h : Int) (n : Nat) :
    ∀ (l : List Elem) (buf buf2 : List Colour),
      renderElems w h buf l = .ok buf2 →
      (∀ e ∈ l, coversIdx e w h n = false) →
      buf2[n]? = buf[n]?
  | [], _, _, hr, _ => by cases hr; rfl
  | e0 :: l, buf, buf2, hr, hnc => by
    simp only [renderElems] at hr
    cases hp : paintElement w h buf e0 with
    | error err => rw [hp] at hr; cases hr
    | ok b2 =>
      rw [hp] at hr
      have h1 := renderElems_keep w h n l b2 buf2 hr
        (fun e he => hnc e (List.mem_cons_of_mem _ he))
      obtain ⟨ht, c, hc, rfl⟩ := paintElement_ok_inv w h buf b2 e0 hp
      rw [h1, paintGo_getElem?]
      have hfalse := hnc e0 (List.mem_cons_self e0 l)
      cases hb : buf[n]? <;> simp [hfalse, hb]

theorem initialBuffer_length (img : ImageSpec) (r : Resolution) (init : List Colour)
    (hib : initialBuffer img r = .ok init) :
    init.length = (absWidth img r * absHeight img r).toNat := by
  rw [initialBuffer] at hib
  cases hbg : parseColour img.background.data with
  | error err => rw [hbg] at hib; cases hib
  | ok bg =>
    rw [hbg] at hib
    cases hib
    simp

theorem coversIdx_coord (e : Elem) (w h x y : Int)
    (hx0 : 0 ≤ x) (hxw : x < w) (hy0 : 0 ≤ y) :
    coversIdx e w h (y.toNat * w.toNat + x.toNat) = coversRect e w h x y := by
  have hxw2 : x.toNat < w.toNat := by omega
  have hw0 : 0 < w.toNat := by omega
  have hmod : (y.toNat * w.toNat + x.toNat) % w.toNat = x.toNat := by
    rw [Nat.mul_comm y.toNat w.toNat, Nat.mul_add_mod]
    exact Nat.mod_eq_of_lt hxw2
  have hdiv : (y.toNat * w.toNat + x.toNat) / w.toNat = y.toNat := by
    rw [Nat.mul_comm y.toNat w.toNat, Nat.mul_add_div hw0,
      Nat.div_eq_of_lt hxw2, Nat.add_zero]
  rw [coversIdx, hmod, hdiv, Int.toNat_of_nonneg hx0, Int.toNat_of_nonneg hy0]

theorem toNat_mul_of_nonneg (a b : Int) (ha : 0 ≤ a) (hb : 0 ≤ b) :
    (a * b).toNat = a.toNat * b.toNat := by
  lift a to Nat using ha
  lift b to Nat using hb
  rw [← Int.natCast_mul, Int.toNat_natCast, Int.toNat_natCast, Int.toNat_natCast]

theorem pix_index_lt (xn yn wn hn : Nat) (hx : xn < wn) (hy : yn < hn) :
    yn * wn + xn < wn * hn := by
  calc yn * wn + xn < yn * wn + wn := by omega
  _ = (yn + 1) * wn := by ring
  _ ≤ hn * wn := Nat.mul_le_mul_right wn (Nat.succ_le_of_lt hy)
  _ = wn * hn := Nat.mul_comm _ _

theorem mem_drop_getElem? {α : Type} : ∀ (l : List α) (m : Nat) (a : α),
    a ∈ l.drop m → ∃ k, m ≤ k ∧ l[k]? = some a
  | l, 0, a, ha => by
    rw [List.drop_zero] at ha
    obtain ⟨k, hk⟩ := List.mem_iff_getElem?.mp ha
    exact ⟨k, Nat.zero_le k, hk⟩
  | [], m + 1, a, ha => absurd ha (by simp)
  | b :: t, m + 1, a, ha => by
    rw [List.drop_succ_cons] at ha
    obtain ⟨k, hk, hke⟩ := mem_drop_getElem? t m a ha
    exact ⟨k + 1, by omega, by rw [List.getElem?_cons_succ]; exact hke⟩

/-- C2: elements are rendered in list order with opaque overwrite and no
blending: if two rectangles at positions i < j of an image element list
both cover a pixel (x, y) of the canvas, and no element after position j
covers that pixel, then the rendered buffer holds exactly the colour of
the element at position j at that pixel. -/
theorem C2_later_element_wins (img : ImageSpec) (r : Resolution) (buf : List Colour)
    (i j : Nat) (x y : Int) (ei ej : Elem) (cj : Colour)
    (hrender : renderImage img r = .ok buf)
    (hij : i < j)
    (hei : img.elements[i]? = some ei)
    (hej : img.elements[j]? = some ej)
    (hx0 : 0 ≤ x) (hy0 : 0 ≤ y)
    (hcovi : coversRect ei (absWidth img r) (absHeight img r) x y = true)
    (hcovj : coversRect ej (absWidth img r) (absHeight img r) x y = true)
    (hafter : ∀ (k : Nat) (ek : Elem), j < k → img.elements[k]? = some ek →
        coversRect ek (absWidth img r) (absHeight img r) x y = false)
    (hcj : parseColour ej.colour.data = .ok cj) :
    buf[y.toNat * (absWidth img r).toNat + x.toNat]? = some cj := by
  obtain ⟨hxw, hyh⟩ := coversRect_inside ej _ _ x y hcovj
  rw [renderImage] at hrender
  cases hib : initialBuffer img r with
  | error err => rw [hib] at hrender; cases hrender
  | ok init =>
    rw [hib] at hrender
    replace hrender : renderElems (absWidth img r) (absHeight img r) init
        img.elements = .ok buf := hrender
    obtain ⟨hjlen, hjget⟩ := List.getElem?_eq_some.mp hej
    have hsplit : img.elements
        = img.elements.take j ++ ej :: img.elements.drop (j + 1) := by
      rw [← hjget, ← List.drop_eq_getElem_cons hjlen, List.take_append_drop]
    rw [hsplit, renderElems_append] at hrender
    cases h1 : renderElems (absWidth img r) (absHeight img r) init
        (img.elements.take j) with
    | error err => rw [h1] at hrender; cases hrender
    | ok b1 =>
      rw [h1] at hrender
      simp only [renderElems] at hrender
      cases hp : paintElement (absWidth img r) (absHeight img r) b1 ej with
      | error err => rw [hp] at hrender; cases hrender
      | ok b2 =>
        rw [hp] at hrender
        have hcovn : coversIdx ej (absWidth img r) (absHeight img r)
            (y.toNat * (absWidth img r).toNat + x.toNat) = true := by
          rw [coversIdx_coord ej _ _ x y hx0 hxw hy0]
          exact hcovj
        have hlb1 : b1.length = init.length := renderElems_length _ _ _ init b1 h1
        have hnlen : y.toNat * (absWidth img r).toNat + x.toNat < b1.length := by
          rw [hlb1, initialBuffer_length img r init hib,
            toNat_mul_of_nonneg _ _ (by omega) (by omega)]
          exact pix_index_lt _ _ _ _ (by omega) (by omega)
        obtain ⟨htj, c0, hc0, rfl⟩ := paintElement_ok_inv _ _ b1 b2 ej hp
        have hc0j : c0 = cj := by
          rw [hc0] at hcj
          cases hcj
          rfl
        subst hc0j
        have htail : buf[y.toNat * (absWidth img r).toNat + x.toNat]?
            = (paintGo (coversIdx ej (absWidth img r) (absHeight img r)) c0 0 b1)[
                y.toNat * (absWidth img r).toNat + x.toNat]? := by
          apply renderElems_keep _ _ _ _ _ buf hrender
          intro e2 he2
          obtain ⟨k, hk, hke⟩ := mem_drop_getElem? img.elements (j + 1) e2 he2
          rw [coversIdx_coord e2 _ _ x y hx0 hxw hy0]
          exact hafter k e2 (by omega) hke
        rw [htail, paintGo_getElem?, List.getElem?_eq_getElem hnlen]
        simp [hcovn]

/-- Witness for C2: two stacked full canvas rectangles, red then green, on
a 2 x 2 canvas; the shared pixel (1, 1) holds the colour of the later,
green rectangle. -/
theorem C2_later_element_wins_witness :
    renderImage imgC2 res22 = .ok (List.replicate 4 colourGreen)
    ∧ imgC2.elements[0]? = some elemFullRed
    ∧ imgC2.elements[1]? = some elemFullGreen
    ∧ coversRect elemFullRed (absWidth imgC2 res22) (absHeight imgC2 res22) 1 1 = true
    ∧ coversRect elemFullGreen (absWidth imgC2 res22) (absHeight imgC2 res22) 1 1 = true
    ∧ parseColour elemFullGreen.colour.data = .ok colourGreen
    ∧ (List.replicate 4 colourGreen)[
        (1 : Int).toNat * (absWidth imgC2 res22).toNat + (1 : Int).toNat]?
        = some colourGreen := by
  refine ⟨by decide, by decide, by decide, by decide, by decide, by decide, ?_⟩
  exact C2_later_element_wins imgC2 res22 (List.replicate 4 colourGreen) 0 1 1 1
    elemFullRed elemFullGreen colourGreen (by decide) (by decide) (by decide)
    (by decide) (by decide) (by decide) (by decide) (by decide)
    (fun k ek hk hke => by
      have hlen : imgC2.elements.length = 2 := rfl
      have hnone : imgC2.elements[k]? = none := List.getElem?_eq_none (by omega)
      rw [hnone] at hke
      cases hke)
    (by decide)

-- Facts about the pipeline loop.

theorem processPair_ok_inv (dirOk enc : String → Bool) (out : String)
    (img : ImageSpec) (r : Resolution)
    (hp : (processPair dirOk enc out img r).2 = .ok ()) :
    (processPair dirOk enc out img r).1
      = [Ev.mkDir (resolutionFolder out r),
         Ev.write img.name r (enc (outputFile out img r))]
      ∧ ∃ buf, renderImage img r = .ok buf := by
  rw [processPair] at hp ⊢
  by_cases hd : dirOk (resolutionFolder out r) = false
  · simp [hd] at hp
  · cases hr : renderImage img r with
    | error e => simp [hd, hr] at hp
    | ok buf => simp [hd, hr]

theorem processPair_error_evs (dirOk enc : String → Bool) (out : String)
    (img : ImageSpec) (r : Resolution) (e : RunError)
    (hp : (processPair dirOk enc out img r).2 = .error e) :
    (processPair dirOk enc out img r).1 = [Ev.mkDir (resolutionFolder out r)] := by
  rw [processPair] at hp ⊢
  by_cases hd : dirOk (resolutionFolder out r) = false
  · simp [hd]
  · cases hr : renderImage img r with
    | error e2 => simp [hd, hr]
    | ok buf => simp [hd, hr] at hp

theorem processPair_no_write (dirOk enc : String → Bool) (out : String)
    (img : ImageSpec) (r : Resolution) (e : RunError)
    (hp : (processPair dirOk enc out img r).2 = .error e) :
    ∀ (n : String) (rr : Resolution) (f : Bool),
      Ev.write n rr f ∉ (processPair dirOk enc out img r).1 := by
  rw [processPair_error_evs dirOk enc out img r e hp]
  intro n rr f hmem
  simp at hmem

theorem processPair_write_inv (dirOk enc : String → Bool) (out : String)
    (img : ImageSpec) (r : Resolution) (n : String) (rr : Resolution) (f : Bool)
    (hmem : Ev.write n rr f ∈ (processPair dirOk enc out img r).1) :
    n = img.name ∧ rr = r ∧ ∃ buf, renderImage img r = .ok buf := by
  rw [processPair] at hmem
  by_cases hd : dirOk (resolutionFolder out r) = false
  · simp [hd] at hmem
  · cases hr : renderImage img r with
    | error e => simp [hd, hr] at hmem
    | ok buf =>
      simp [hd, hr] at hmem
      exact ⟨hmem.1, hmem.2.1, buf, rfl⟩

theorem bind_congr_mem {α β : Type} : ∀ (l : List α) (f g : α → List β),
    (∀ a ∈ l, f a = g a) → l.bind f = l.bind g
  | [], _, _, _ => rfl
  | a :: t, f, g, hfg => by
    show f a ++ t.bind f = g a ++ t.bind g
    rw [hfg a (List.mem_cons_self a t),
      bind_congr_mem t f g (fun b hb => hfg b (List.mem_cons_of_mem a hb))]

theorem runSeq_all_ok (dirOk enc : String → Bool) (out : String) :
    ∀ pairs : List (ImageSpec × Resolution),
      (∀ p ∈ pairs, (processPair dirOk enc out p.1 p.2).2 = .ok ()) →
      runSeq dirOk enc out pairs
        = (pairs.bind fun p => (processPair dirOk enc out p.1 p.2).1, .ok ())
  | [], _ => rfl
  | p :: rest, hall => by
    have hph := hall p (List.mem_cons_self p rest)
    have ih := runSeq_all_ok dirOk enc out rest
      (fun q hq => hall q (List.mem_cons_of_mem p hq))
    simp only [runSeq, hph, ih, List.cons_bind]

theorem runSeq_error_split (dirOk enc : String → Bool) (out : String) :
    ∀ (pairs : List (ImageSpec × Resolution)) (e : RunError),
      (runSeq dirOk enc out pairs).2 = .error e →
      ∃ done p rest, pairs = done ++ p :: rest
        ∧ (∀ q ∈ done, (processPair dirOk enc out q.1 q.2).2 = .ok ())
        ∧ (processPair dirOk enc out p.1 p.2).2 = .error e
        ∧ (runSeq dirOk enc out pairs).1
            = (done.bind fun q => (processPair dirOk enc out q.1 q.2).1)
              ++ (processPair dirOk enc out p.1 p.2).1
  | [], e, herr => by simp [runSeq] at herr
  | p :: rest, e, herr => by
    cases hph : (processPair dirOk enc out p.1 p.2).2 with
    | error e2 =>
      have he : e2 = e := by
        simp only [runSeq, hph] at herr
        exact Except.error.inj herr
      subst he
      exact ⟨[], p, rest, rfl, by simp, hph, by simp only [runSeq, hph]; simp⟩
    | ok u =>
      cases u
      have herr2 : (runSeq dirOk enc out rest).2 = .error e := by
        simp only [runSeq, hph] at herr
        exact herr
      obtain ⟨done, pp, rest2, hsplit, hdone, hperr, hevs⟩ :=
        runSeq_error_split dirOk enc out rest e herr2
      refine ⟨p :: done, pp, rest2, by rw [hsplit]; rfl, ?_, hperr, ?_⟩
      · intro q hq
        rcases List.mem_cons.mp hq with rfl | hq2
        · exact hph
        · exact hdone q hq2
      · simp only [runSeq, hph, List.cons_bind]
        rw [hevs, List.append_assoc]

theorem runSeq_write_inv (dirOk enc : String → Bool) (out : String) :
    ∀ (pairs : List (ImageSpec × Resolution)) (n : String) (rr : Resolution) (f : Bool),
      Ev.write n rr f ∈ (runSeq dirOk enc out pairs).1 →
      ∃ img buf, (img, rr) ∈ pairs ∧ img.name = n ∧ renderImage img rr = .ok buf
  | [], n, rr, f, hmem => absurd hmem (by simp [runSeq])
  | p :: rest, n, rr, f, hmem => by
    cases hph : (processPair dirOk enc out p.1 p.2).2 with
    | error e =>
      simp only [runSeq, hph] at hmem
      obtain ⟨h1, h2, buf, hbuf⟩ :=
        processPair_write_inv dirOk enc out p.1 p.2 n rr f hmem
      subst h2
      exact ⟨p.1, buf, by simp, h1.symm, hbuf⟩
    | ok u =>
      cases u
      simp only [runSeq, hph, List.mem_append] at hmem
      rcases hmem with hmem1 | hmem2
      · obtain ⟨h1, h2, buf, hbuf⟩ :=
          processPair_write_inv dirOk enc out p.1 p.2 n rr f hmem1
        subst h2
        exact ⟨p.1, buf, by simp, h1.symm, hbuf⟩
      · obtain ⟨img, buf, hmem3, hname, hbuf⟩ :=
          runSeq_write_inv dirOk enc out rest n rr f hmem2
        exact ⟨img, buf, List.mem_cons_of_mem p hmem3, hname, hbuf⟩

theorem runSeq_enc_invariant (dirOk enc enc2 : String → Bool) (out : String) :
    ∀ pairs : List (ImageSpec × Resolution),
      (runSeq dirOk enc out pairs).2 = (runSeq dirOk enc2 out pairs).2
      ∧ (runSeq dirOk enc out pairs).1.map forgetEnc
          = (runSeq dirOk enc2 out pairs).1.map forgetEnc
  | [] => ⟨rfl, rfl⟩
  | p :: rest => by
    have ih := runSeq_enc_invariant dirOk enc enc2 out rest
    have hp2 : (processPair dirOk enc out p.1 p.2).2
        = (processPair dirOk enc2 out p.1 p.2).2 := by
      rw [processPair, processPair]
      by_cases hd : dirOk (resolutionFolder out p.2) = false
      · simp [hd]
      · cases hr : renderImage p.1 p.2 <;> simp [hd, hr]
    have hp1 : (processPair dirOk enc out p.1 p.2).1.map forgetEnc
        = (processPair dirOk enc2 out p.1 p.2).1.map forgetEnc := by
      rw [processPair, processPair]
      by_cases hd : dirOk (resolutionFolder out p.2) = false
      · simp [hd]
      · cases hr : renderImage p.1 p.2 <;> simp [hd, hr, forgetEnc]
    cases hph : (processPair dirOk enc out p.1 p.2).2 with
    | error e =>
      have hph2 : (processPair dirOk enc2 out p.1 p.2).2 = .error e := by
        rw [← hp2, hph]
      constructor
      · simp only [runSeq, hph, hph2]
      · simp only [runSeq, hph, hph2]
        exact hp1
    | ok u =>
      cases u
      have hph2 : (processPair dirOk enc2 out p.1 p.2).2 = .ok () := by
        rw [← hp2, hph]
      constructor
      · simp only [runSeq, hph, hph2]
        exact ih.1
      · simp only [runSeq, hph, hph2, List.map_append]
        rw [hp1, ih.2]

theorem pairOrder_mem_images (d : Description) (p : ImageSpec × Resolution)
    (hp : p ∈ pairOrder d) : p.1 ∈ d.images := by
  rw [pairOrder] at hp
  obtain ⟨img, himg, hmem⟩ := List.mem_bind.mp hp
  obtain ⟨r, hr, heq⟩ := List.mem_map.mp hmem
  subst heq
  exact himg

theorem renderElems_unsupported (w h : Int) :
    ∀ (pre : List Elem) (bad : Elem) (rest : List Elem) (buf : List Colour),
      ¬ bad.type = "rectangle" →
      (∀ e ∈ pre, e.type = "rectangle" ∧ ∃ c, parseColour e.colour.data = .ok c) →
      renderElems w h buf (pre ++ bad :: rest) = .error .unsupportedElementType
  | [], bad, rest, buf, hbad, _ => by
    simp only [List.nil_append, renderElems]
    rw [paintElement, if_neg hbad]
  | e :: pre, bad, rest, buf, hbad, hpre => by
    obtain ⟨ht, c, hc⟩ := hpre e (List.mem_cons_self e pre)
    simp only [List.cons_append, renderElems]
    rw [paintElement_ok_of w h buf e c ht hc]
    exact renderElems_unsupported w h pre bad rest _ hbad
      (fun e2 he2 => hpre e2 (List.mem_cons_of_mem e he2))

/-- C5 counterexample: with two images and two resolutions, the run creates
the directory of the first resolution twice, once per image, not exactly
once, and it writes the first image at the second resolution before the
second image at the first resolution, so resolutions are not the outer
loop. -/
theorem C5_counterexample :
    ((runPipeline dirOkAll encOkAll descC5).1.count
        (Ev.mkDir (resolutionFolder outP res11)) = 2)
    ∧ (runPipeline dirOkAll encOkAll descC5).1.indexOf (Ev.write nameA res22 true)
        < (runPipeline dirOkAll encOkAll descC5).1.indexOf
            (Ev.write nameB res11 true) := by decide

/-- C5 amended: the pipeline iterates images in the outer loop and
resolutions in the inner loop; the resolution scoped directory named
res{width}x{height} is created once per (image, resolution) pair, so once
per image for every resolution rather than once per resolution, and each
creation happens before the file of that pair is written. -/
theorem C5_image_outer_order (dirOk enc : String → Bool) (d : Description)
    (hall : ∀ p ∈ pairOrder d,
      (processPair dirOk enc d.outputPath p.1 p.2).2 = .ok ()) :
    (runPipeline dirOk enc d).1
      = (pairOrder d).bind (fun p =>
          [Ev.mkDir (resolutionFolder d.outputPath p.2),
           Ev.write p.1.name p.2 (enc (outputFile d.outputPath p.1 p.2))])
    ∧ (runPipeline dirOk enc d).2 = .ok () := by
  have h := runSeq_all_ok dirOk enc d.outputPath (pairOrder d) hall
  constructor
  · rw [runPipeline, h]
    exact bind_congr_mem (pairOrder d) _ _
      (fun p hp => (processPair_ok_inv dirOk enc d.outputPath p.1 p.2 (hall p hp)).1)
  · rw [runPipeline, h]

/-- Witness for amended C5 at two images and two resolutions. -/
theorem C5_image_outer_order_witness :
    (∀ p ∈ pairOrder descC5,
        (processPair dirOkAll encOkAll descC5.outputPath p.1 p.2).2 = .ok ())
    ∧ (runPipeline dirOkAll encOkAll descC5).1
        = (pairOrder descC5).bind (fun p =>
            [Ev.mkDir (resolutionFolder descC5.outputPath p.2),
             Ev.write p.1.name p.2 (encOkAll (outputFile descC5.outputPath p.1 p.2))])
    ∧ (runPipeline dirOkAll encOkAll descC5).2 = .ok () :=
  ⟨by decide, (C5_image_outer_order dirOkAll encOkAll descC5 (by decide)).1,
    (C5_image_outer_order dirOkAll encOkAll descC5 (by decide)).2⟩

/-- C6: exit code behaviour at the catch blocks.  Usage errors, unreadable
files and malformed input return 1, but a fatal processing error, here the
unsupported element type error raised by an ellipse element and likewise
invalid colour format, schema violation and output directory errors, is
reported and the process still returns 0, contradicting both exit 1 on
fatal processing errors and exit 0 only on success. -/
theorem C6_fatal_error_exit_code :
    (runPipeline dirOkAll encOkAll descC6).2 = .error .unsupportedElementType
    ∧ mainExitCode 2 true ((runPipeline dirOkAll encOkAll descC6).2) = 0
    ∧ mainExitCode 2 true (.error .invalidColourFormat) = 0
    ∧ mainExitCode 2 true (.error .schemaViolation) = 0
    ∧ mainExitCode 2 true (.error .outputDirectoryError) = 0
    ∧ mainExitCode 1 true (.ok ()) = 1
    ∧ mainExitCode 2 false (.ok ()) = 1
    ∧ mainExitCode 2 true (.error .malformedInput) = 1
    ∧ mainExitCode 2 true (.ok ()) = 0 := by decide

/-- C7 counterexample: with a valid first image and a second image holding
an ellipse element, the run fails with the unsupported element type error,
yet the output file of the first image was already handed to the encoder
before the abort, so a fatal error does not prevent partial output. -/
theorem C7_counterexample :
    (runPipeline dirOkAll encOkAll descC7).2 = .error .unsupportedElementType
    ∧ Ev.write nameA res11 true ∈ (runPipeline dirOkAll encOkAll descC7).1 := by
  decide

/-- C7 amended: the first fatal error aborts the run at the failing
(image, resolution) pair: every earlier pair completed successfully, the
failing pair itself hands no file to the encoder, and no later pair is
processed, but the files of the pairs completed before the error were
already handed to the encoder and are not retracted. -/
theorem C7_abort_after_prior_writes (dirOk enc : String → Bool) (out : String)
    (pairs : List (ImageSpec × Resolution)) (e : RunError)
    (herr : (runSeq dirOk enc out pairs).2 = .error e) :
    ∃ done p rest, pairs = done ++ p :: rest
      ∧ (∀ q ∈ done, (processPair dirOk enc out q.1 q.2).2 = .ok ())
      ∧ (processPair dirOk enc out p.1 p.2).2 = .error e
      ∧ (runSeq dirOk enc out pairs).1
          = (done.bind fun q => (processPair dirOk enc out q.1 q.2).1)
            ++ [Ev.mkDir (resolutionFolder out p.2)]
      ∧ ∀ (n : String) (rr : Resolution) (f : Bool),
          Ev.write n rr f ∉ (processPair dirOk enc out p.1 p.2).1 := by
  obtain ⟨done, p, rest, hsplit, hdone, hperr, hevs⟩ :=
    runSeq_error_split dirOk enc out pairs e herr
  refine ⟨done, p, rest, hsplit, hdone, hperr, ?_,
    processPair_no_write dirOk enc out p.1 p.2 e hperr⟩
  rw [hevs, processPair_error_evs dirOk enc out p.1 p.2 e hperr]

/-- Witness for amended C7 at a run whose second image fails. -/
theorem C7_abort_after_prior_writes_witness :
    (runSeq dirOkAll encOkAll descC7.outputPath (pairOrder descC7)).2
      = .error .unsupportedElementType
    ∧ ∃ done p rest, pairOrder descC7 = done ++ p :: rest
        ∧ (∀ q ∈ done,
            (processPair dirOkAll encOkAll descC7.outputPath q.1 q.2).2 = .ok ())
        ∧ (processPair dirOkAll encOkAll descC7.outputPath p.1 p.2).2
            = .error .unsupportedElementType
        ∧ (runSeq dirOkAll encOkAll descC7.outputPath (pairOrder descC7)).1
            = (done.bind fun q =>
                (processPair dirOkAll encOkAll descC7.outputPath q.1 q.2).1)
              ++ [Ev.mkDir (resolutionFolder descC7.outputPath p.2)]
        ∧ ∀ (n : String) (rr : Resolution) (f : Bool),
            Ev.write n rr f
              ∉ (processPair dirOkAll encOkAll descC7.outputPath p.1 p.2).1 :=
  ⟨by decide, C7_abort_after_prior_writes dirOkAll encOkAll descC7.outputPath
    (pairOrder descC7) .unsupportedElementType (by decide)⟩

/-- C8: an element whose type tag is not rectangle makes rendering of its
image fail with the unsupported element type error (once the background and
all elements before it are themselves valid), and no output file of that
image is ever handed to the encoder during the whole run. -/
theorem C8_unsupported_element (d : Description) (dirOk enc : String → Bool)
    (img : ImageSpec) (pre rest : List Elem) (bad : Elem)
    (himg : img ∈ d.images)
    (huniq : ∀ i2 ∈ d.images, i2.name = img.name → i2 = img)
    (helems : img.elements = pre ++ bad :: rest)
    (hbadty : ¬ bad.type = "rectangle")
    (hpre : ∀ e ∈ pre, e.type = "rectangle" ∧ ∃ c, parseColour e.colour.data = .ok c)
    (hbg : ∃ c, parseColour img.background.data = .ok c) :
    (∀ r : Resolution, renderImage img r = .error .unsupportedElementType)
    ∧ ∀ (r : Resolution) (f : Bool),
        Ev.write img.name r f ∉ (runPipeline dirOk enc d).1 := by
  have hrender : ∀ r : Resolution,
      renderImage img r = .error .unsupportedElementType := by
    intro r
    obtain ⟨c, hc⟩ := hbg
    rw [renderImage, initialBuffer, hc, helems]
    exact renderElems_unsupported _ _ pre bad rest _ hbadty hpre
  refine ⟨hrender, ?_⟩
  intro r f hmem
  obtain ⟨img2, buf, hp, hname, hbuf⟩ :=
    runSeq_write_inv dirOk enc d.outputPath (pairOrder d) img.name r f hmem
  have himg2 : img2 = img := huniq img2 (pairOrder_mem_images d (img2, r) hp) hname
  subst himg2
  rw [hrender r] at hbuf
  cases hbuf

/-- Witness for C8 at the single image description with an ellipse. -/
theorem C8_unsupported_element_witness :
    imgEllipse ∈ descC8.images
    ∧ (∀ i2 ∈ descC8.images, i2.name = imgEllipse.name → i2 = imgEllipse)
    ∧ imgEllipse.elements = [] ++ elemEllipse :: []
    ∧ ¬ elemEllipse.type = "rectangle"
    ∧ (∃ c, parseColour imgEllipse.background.data = .ok c)
    ∧ (∀ r : Resolution, renderImage imgEllipse r = .error .unsupportedElementType)
    ∧ ∀ (r : Resolution) (f : Bool),
        Ev.write imgEllipse.name r f ∉ (runPipeline dirOkAll encOkAll descC8).1 := by
  have h := C8_unsupported_element descC8 dirOkAll encOkAll imgEllipse [] [] elemEllipse
    (by decide) (by decide) rfl (by decide)
    (fun e he => absurd he (List.not_mem_nil e)) ⟨colourBlack, by decide⟩
  exact ⟨by decide, by decide, rfl, by decide, ⟨colourBlack, by decide⟩, h.1, h.2⟩

/-- C10: the encoder result is discarded: the run outcome and the event
trace up to encoder results are identical under any two encoder oracles,
processing continues over all pairs regardless of encoder failures, and a
run that otherwise succeeds exits with code 0. -/
theorem C10_encoder_result_ignored (dirOk enc enc2 : String → Bool) (d : Description) :
    (runPipeline dirOk enc d).2 = (runPipeline dirOk enc2 d).2
    ∧ (runPipeline dirOk enc d).1.map forgetEnc
        = (runPipeline dirOk enc2 d).1.map forgetEnc
    ∧ ((runPipeline dirOk enc d).2 = .ok ()
        → mainExitCode 2 true (runPipeline dirOk enc d).2 = 0) := by
  refine ⟨(runSeq_enc_invariant dirOk enc enc2 d.outputPath (pairOrder d)).1,
    (runSeq_enc_invariant dirOk enc enc2 d.outputPath (pairOrder d)).2, ?_⟩
  intro hok
  rw [hok]
  rfl

/-- Witness for C10: the failing encoder leaves outcome, trace shape and
exit code unchanged on a one image description. -/
theorem C10_encoder_result_ignored_witness :
    (runPipeline dirOkAll encFailAll descC10).2 = .ok ()
    ∧ (runPipeline dirOkAll encFailAll descC10).2
        = (runPipeline dirOkAll encOkAll descC10).2
    ∧ (runPipeline dirOkAll encFailAll descC10).1.map forgetEnc
        = (runPipeline dirOkAll encOkAll descC10).1.map forgetEnc
    ∧ mainExitCode 2 true (runPipeline dirOkAll encFailAll descC10).2 = 0 := by
  have h := C10_encoder_result_ignored dirOkAll encFailAll encOkAll descC10
  exact ⟨by decide, h.1, h.2.1, h.2.2 (by decide)⟩

/-- C9: the colour parser is total: every character list either parses to a
colour or fails with the invalid colour format error, and in particular the
empty string and the lone hash character fail with that error. -/
theorem C9_parser_totality :
    (∀ s : List Char,
        (∃ c, parseColour s = .ok c) ∨ parseColour s = .error .invalidColourFormat)
    ∧ parseColour [] = .error .invalidColourFormat
    ∧ parseColour ['#'] = .error .invalidColourFormat := by
  refine ⟨?_, by decide, by decide⟩
  intro s
  rw [parseColour, parseColourBody]
  split_ifs <;> first | exact .inl ⟨_, rfl⟩ | exact .inr rfl

end Sidle
